import Mathlib

/-!
# Verification of the Grit retry/backoff engine

A shallow embedding of the Grit library (builder `GritBuilder`, engine `Grit`,
config validation `validateGritConfig`, delay computation `#currentDelay`,
timeout race `#withTimeout`, retry loop `#execute`, entry points
`attempt`/`safeAttempt`) together with proofs of its specified properties.

Modelling conventions:
* JS numbers used for delays are modelled as `Rat`; the timeout field, whose
  validation distinguishes `Number.POSITIVE_INFINITY`, is modelled as `JsNum`.
* Thrown values are modelled by `Thrown`: either an object carrying a runtime
  class identity (`Thrown.classed`) or a non-class-bearing value such as a raw
  string or `null`.
* Promise resolution/rejection is modelled by `Except Thrown`; the wrapped
  operation is a function `Nat → Except Thrown α` from the attempt number to
  its settled outcome.
* The nondeterministic parts (which contender settles a timeout race first,
  the value of `Math.random()`) are supplied as oracle parameters.
* The mutation of an explicit delay array by `Array.prototype.shift` is
  modelled by threading the delay configuration through the execution state
  and returning the final (possibly consumed) configuration.
-/

/-- A JS number as used in the timeout configuration: finite (as a rational)
or `Number.POSITIVE_INFINITY`. -/
inductive JsNum where
  | fin (q : Rat)
  | posInf
deriving DecidableEq

/-- `x <= 0` on a JS number (`POSITIVE_INFINITY <= 0` is false). -/
def JsNum.le0 : JsNum → Bool
  | .fin q => q ≤ 0
  | .posInf => false

/-- JS truthiness of a number: `0` (and `NaN`, not modelled) is falsy. -/
def JsNum.truthy : JsNum → Bool
  | .fin q => q ≠ 0
  | .posInf => true

/-- Runtime class identities used for `error.constructor` comparisons:
the library's own error classes, `DOMException` (produced by aborts), and
arbitrary user-defined classes. -/
inductive ErrClass where
  | gritError
  | timeoutError
  | maxRetriesError
  | domException
  | userClass (n : Nat)
deriving DecidableEq

/-- An error message: either the default timeout message built by
`getTimeoutConfig` (which embeds the timeout duration) or a literal string. -/
inductive TMessage where
  | defaultMsg (t : JsNum)
  | custom (s : String)
deriving DecidableEq

/-- A thrown/rejected value: an object exposing a runtime class identity via
`constructor`, or a non-class-bearing value (a raw string, or `null`). -/
inductive Thrown where
  | classed (cls : ErrClass) (msg : TMessage)
  | rawStr (s : String)
  | rawNull
deriving DecidableEq

/-- `new GritError(message)`. -/
def mkGritError (s : String) : Thrown := .classed .gritError (.custom s)

/-- `new TimeoutError(message)`. -/
def mkTimeoutError (m : TMessage) : Thrown := .classed .timeoutError m

/-- The runtime class of a thrown value, when it exposes one
(`error && typeof error === 'object' && 'constructor' in error`). -/
def Thrown.classId : Thrown → Option ErrClass
  | .classed c _ => some c
  | .rawStr _ => none
  | .rawNull => none

/-- The state of an `AbortSignal`: whether it is aborted and its `reason`. -/
structure SignalState where
  aborted : Bool
  reason : Option Thrown
deriving DecidableEq

/-- `const getAbortedReason = (signal) => signal.reason ?? new
DOMException('This operation was aborted.', 'AbortError')` (grit.ts line 6). -/
def getAbortedReason (signal : SignalState) : Thrown :=
  signal.reason.getD (.classed .domException (.custom "This operation was aborted."))

/-- `DelayConfig` (types.ts): a scalar, an explicit per-retry array, an
exponential spec `{delay, factor?}`, or a jitter spec
`{minDelay, maxDelay, factor?}`. -/
inductive DelayConfig where
  | fixed (ms : Rat)
  | arr (ds : List Rat)
  | expo (delay : Rat) (factor : Option Rat)
  | jitter (minDelay maxDelay : Rat) (factor : Option Rat)
deriving DecidableEq

/-- JS truthiness of `this.delay` / `delayConfig`: `undefined` and the scalar
`0` are falsy; arrays (even empty) and objects are truthy. -/
def delayTruthy : Option DelayConfig → Bool
  | none => false
  | some (.fixed q) => q ≠ 0
  | some (.arr _) => true
  | some (.expo _ _) => true
  | some (.jitter _ _ _) => true

/-- `TimeoutConfig` (types.ts): a scalar or `{timeout, message?, signal?}`. -/
inductive TimeoutConfig where
  | scalar (ms : JsNum)
  | obj (timeout : JsNum) (message : Option String) (signal : Option SignalState)

/-- JS truthiness of `this.timeout`: `undefined` and the scalar `0` are
falsy; objects are truthy. -/
def timeoutTruthy : Option TimeoutConfig → Bool
  | none => false
  | some (.scalar ms) => ms.truthy
  | some (.obj _ _ _) => true

/-- `validateGritConfig` (utils.ts), timeout part: reached only when the
delay block falls through (no delay config, falsy delay config, or a valid
jitter config). -/
def validateTimeout : Option TimeoutConfig → Except Thrown Unit
  | none => .ok ()
  | some tc =>
    if timeoutTruthy (some tc) then
      match tc with
      | .scalar t =>
        if t.le0 then .error (mkGritError "timeout must be greater than 0")
        else if t = .posInf then .error (mkGritError "timeout cannot be infinity")
        else .ok ()
      | .obj t _ _ =>
        if t = .posInf then .error (mkGritError "timeout cannot be infinity")
        else if t.le0 then .error (mkGritError "timeout must be greater than 0")
        else .ok ()
    else .ok ()

/-- `validateGritConfig` (utils.ts): synchronous policy validation run by the
`Grit` constructor.  Faithful to the source's control flow: a missing
`retryCount` is an error; the delay block runs only when the delay config is
truthy, and its scalar/array/exponential branches `return` early, skipping
timeout validation; only the jitter branch (and the no-delay paths) fall
through to the timeout checks.  Note the scalar branch rejects only strictly
negative values (`delayConfig < 0`). -/
def validateGritConfig (retryCount : Option Nat) (delay : Option DelayConfig)
    (timeout : Option TimeoutConfig) : Except Thrown Unit :=
  match retryCount with
  | none => .error (mkGritError "Missing retry config (Grit.retry(<count>))")
  | some rc =>
    match delay with
    | some d =>
      if delayTruthy (some d) then
        match d with
        | .fixed q =>
          if q < 0 then .error (mkGritError "delay must be greater than 0") else .ok ()
        | .arr l =>
          if l.length ≠ rc then
            .error (mkGritError "Delay array length must be equal to retry count")
          else if l.any (fun x => x ≤ 0) then
            .error (mkGritError "delay must be greater than 0")
          else .ok ()
        | .expo dd _ =>
          if dd ≤ 0 then .error (mkGritError "delay must be greater than 0") else .ok ()
        | .jitter mn mx _ =>
          if mn = 0 then .error (mkGritError "minDelay must be a number")
          else if mx = 0 then .error (mkGritError "maxDelay must be a number")
          else if mn ≥ mx then .error (mkGritError "minDelay must be less than maxDelay")
          else if mn ≤ 0 then .error (mkGritError "minDelay must be greater than 0")
          else if mx ≤ 0 then .error (mkGritError "maxDelay must be greater than 0")
          else validateTimeout timeout
      else validateTimeout timeout
    | none => validateTimeout timeout

/-- `factor || 1`: a falsy factor (absent, or `0`) defaults to `1`. -/
def orOne : Option Rat → Rat
  | none => 1
  | some f => if f = 0 then 1 else f

/-- The `#currentDelay` getter (grit.ts lines 34-47), before the `!delay`
check: computes the raw delay value (`none` models `undefined`) and the
delay configuration after the side effect of `Array.prototype.shift`.
`attempts` is `this.attempts`; `rand` is the value of `Math.random()`. -/
def currentDelayRaw (ds : Option DelayConfig) (attempts : Nat) (rand : Rat) :
    Option Rat × Option DelayConfig :=
  match ds with
  | some (.fixed q) => (some q, ds)
  | some (.arr l) => (l.head?, some (.arr l.tail))
  | some (.expo d f) => (some (d * orOne f ^ ((attempts : Int) - 2)), ds)
  | some (.jitter mn mx f) =>
    let randomDelay := rand * (mx - mn) + mn
    (some (match f with
      | some fv => if fv = 0 then randomDelay else randomDelay * fv ^ ((attempts : Int) - 2)
      | none => randomDelay), ds)
  | none => (none, ds)

/-- The full `#currentDelay` getter including the
`if (!delay) throw new GritError("No delay. Should never happen.")` check:
a missing or falsy (zero) computed delay becomes a `GritError`. -/
def currentDelay (ds : Option DelayConfig) (attempts : Nat) (rand : Rat) :
    Except Thrown Rat × Option DelayConfig :=
  match currentDelayRaw ds attempts rand with
  | (some d, ds2) =>
    if d = 0 then (.error (mkGritError "No delay. Should never happen."), ds2)
    else (.ok d, ds2)
  | (none, ds2) => (.error (mkGritError "No delay. Should never happen."), ds2)

/-- The result of `getTimeoutConfig` (utils.ts): the resolved timeout
duration, message and optional signal. -/
structure ResolvedTimeout where
  timeout : JsNum
  message : TMessage
  signal : Option SignalState

/-- `getTimeoutConfig` (utils.ts): a scalar resolves to a default message and
no signal; an object keeps its signal, a falsy (absent or empty) message
defaulting. -/
def getTimeoutConfig : TimeoutConfig → ResolvedTimeout
  | .scalar t => ⟨t, .defaultMsg t, none⟩
  | .obj t msg sig =>
    ⟨t, (match msg with
          | some m => if m = "" then .defaultMsg t else .custom m
          | none => .defaultMsg t), sig⟩

/-- Which contender of the `#withTimeout` race (grit.ts lines 61-96) settles
the wrapped promise first, when the signal is not already aborted: the
operation itself, the timer, or a mid-flight signal abort. -/
inductive RaceWinner where
  | opSettles
  | timerFires
  | signalAborts
deriving DecidableEq

/-- One iteration of the `try` block of `#execute` (grit.ts lines 99-102):
`await this.#withTimeout(fn)` when `this.timeout` is truthy, else
`await fn(this.attempts)`.  Returns the list of attempt numbers at which the
operation was invoked in this round (empty exactly when a pre-aborted signal
short-circuits the race) together with the settled outcome.  `w` is the race
winner oracle for this attempt; when no signal is present the `signalAborts`
winner cannot occur and is interpreted as the operation settling. -/
def tryBody {α : Type} (tc : Option TimeoutConfig) (fn : Nat → Except Thrown α)
    (w : RaceWinner) (attempts : Nat) : List Nat × Except Thrown α :=
  if timeoutTruthy tc then
    match tc with
    | none => ([attempts], fn attempts)
    | some c =>
      let r := getTimeoutConfig c
      match r.signal with
      | some s =>
        if s.aborted then ([], .error (getAbortedReason s))
        else
          ([attempts],
            match w with
            | .opSettles => fn attempts
            | .timerFires => .error (mkTimeoutError r.message)
            | .signalAborts => .error (getAbortedReason s))
      | none =>
        ([attempts],
          match w with
          | .opSettles => fn attempts
          | .timerFires => .error (mkTimeoutError r.message)
          | .signalAborts => fn attempts)
  else ([attempts], fn attempts)

/-- What one call of `#execute` observably produces: the terminal outcome,
the attempt numbers at which the operation was invoked, the
`(error, attempts)` arguments of each fallback invocation, the delays waited
between attempts, and the final delay configuration (recording the
`shift` mutations of a delay array). -/
structure ExecResult (α : Type) where
  outcome : Except Thrown α
  invocations : List Nat
  fallbackCalls : List (Thrown × Nat)
  delays : List Rat
  finalDelay : Option DelayConfig

/-- The configuration fields of a constructed `Grit` engine that `#execute`
reads (the mutable delay config is threaded separately). -/
structure EngineCfg (α : Type) where
  retryCount : Nat
  skipErrors : List ErrClass
  onlyErrors : List ErrClass
  timeout : Option TimeoutConfig
  fallback : Option (Thrown → Nat → Except Thrown α)

/-- The error-class filter of `#execute` (grit.ts lines 110-116): for an
error exposing a class identity, propagate when `skipErrors` is non-empty
and contains the class, else when `onlyErrors` is non-empty and does not
contain it; non-class-bearing errors never propagate here. -/
def propagateByFilter (skip only : List ErrClass) (e : Thrown) : Bool :=
  match e with
  | .classed c _ =>
    if skip ≠ [] ∧ c ∈ skip then true
    else if only ≠ [] ∧ c ∉ only then true
    else false
  | .rawStr _ => false
  | .rawNull => false

/-- `#execute` (grit.ts lines 98-125).  `a` is `this.attempts`, `r` is
`this.retries`, `ds` is the current delay configuration.  `fn` maps the
attempt number to the operation's settled outcome, `w` is the per-attempt
race-winner oracle, and `rand` is the `Math.random()` oracle indexed by the
retry counter at the time `#backoff` runs. -/
def execute {α : Type} (C : EngineCfg α) (fn : Nat → Except Thrown α)
    (w : Nat → RaceWinner) (rand : Nat → Rat)
    (a r : Nat) (ds : Option DelayConfig) : ExecResult α :=
  match tryBody C.timeout fn (w a) a with
  | (inv, .ok v) => ⟨.ok v, inv, [], [], ds⟩
  | (inv, .error e) =>
    if _h : C.retryCount ≤ r then
      match C.fallback with
      | some fb => ⟨fb e a, inv, [(e, a)], [], ds⟩
      | none => ⟨.error e, inv, [], [], ds⟩
    else if propagateByFilter C.skipErrors C.onlyErrors e then
      ⟨.error e, inv, [], [], ds⟩
    else if delayTruthy ds then
      match currentDelay ds (a + 1) (rand r) with
      | (.error ge, ds2) => ⟨.error ge, inv, [], [], ds2⟩
      | (.ok d, ds2) =>
        let rest := execute C fn w rand (a + 1) (r + 1) ds2
        ⟨rest.outcome, inv ++ rest.invocations, rest.fallbackCalls,
          d :: rest.delays, rest.finalDelay⟩
    else
      let rest := execute C fn w rand (a + 1) (r + 1) ds
      ⟨rest.outcome, inv ++ rest.invocations, rest.fallbackCalls,
        rest.delays, rest.finalDelay⟩
termination_by C.retryCount - r
decreasing_by all_goals omega

/-- The accumulated builder options (`GritProps` in types.ts / the fields the
`Grit` constructor copies). -/
structure GritProps (α : Type) where
  retryCount : Option Nat
  onlyErrors : List ErrClass
  skipErrors : List ErrClass
  delay : Option DelayConfig
  timeout : Option TimeoutConfig
  fallback : Option (Thrown → Nat → Except Thrown α)
  logging : Bool

/-- The engine view of validated props (`this.retryCount!`). -/
def GritProps.toEngineCfg {α : Type} (g : GritProps α) : EngineCfg α :=
  ⟨g.retryCount.getD 0, g.skipErrors, g.onlyErrors, g.timeout, g.fallback⟩

/-- `GritBuilder.attempt` / `Grit.attempt`: construct the engine (running
`validateGritConfig`, whose failure is a synchronous throw) and run
`#execute` from `attempts = 1`, `retries = 0`. -/
def gritAttempt {α : Type} (g : GritProps α) (fn : Nat → Except Thrown α)
    (w : Nat → RaceWinner) (rand : Nat → Rat) : Except Thrown (ExecResult α) :=
  match validateGritConfig g.retryCount g.delay g.timeout with
  | .error e => .error e
  | .ok _ => .ok (execute g.toEngineCfg fn w rand 1 0 g.delay)

/-- The `{result, error}` pair produced by `safeAttempt`. -/
structure SafeResult (α : Type) where
  result : Option α
  error : Option Thrown

/-- `Grit.safeAttempt` (grit.ts lines 131-138): await `#execute` and convert
its outcome into a `{result, error}` pair, catching every error. -/
def safeAttempt {α : Type} (C : EngineCfg α) (fn : Nat → Except Thrown α)
    (w : Nat → RaceWinner) (rand : Nat → Rat) (ds : Option DelayConfig) :
    SafeResult α :=
  match (execute C fn w rand 1 0 ds).outcome with
  | .ok v => ⟨some v, none⟩
  | .error e => ⟨none, some e⟩

/-- A `GritBuilder` as reused across calls: the option fields it stores.
The delay configuration is held by reference, so the engine's `shift`
mutations of a delay array are visible in the builder afterwards. -/
structure BuilderState (α : Type) where
  props : GritProps α

/-- One `builder.attempt(fn)` call on a reusable builder: `#build` a fresh
engine (running validation) and execute; the returned builder state carries
the delay configuration as the engine left it, modelling that the array
object is shared by reference rather than cloned. -/
def builderAttemptCall {α : Type} (b : BuilderState α) (fn : Nat → Except Thrown α)
    (w : Nat → RaceWinner) (rand : Nat → Rat) :
    Except Thrown (ExecResult α) × BuilderState α :=
  match gritAttempt b.props fn w rand with
  | .error e => (.error e, b)
  | .ok res => (.ok res, ⟨{ b.props with delay := res.finalDelay }⟩)

/-- The resource the backoff machinery needs so that `#currentDelay` never
raises its defensive `GritError`: for an array config, the remaining entries
are positive and exactly cover the remaining retry budget; for the other
shapes, the positivity facts established by `validateGritConfig`. -/
def delayInvariant (ds : Option DelayConfig) (n r : Nat) : Prop :=
  match ds with
  | none => True
  | some (.fixed q) => 0 ≤ q
  | some (.arr l) => l.length = n - r ∧ ∀ x ∈ l, 0 < x
  | some (.expo d _) => d ≠ 0
  | some (.jitter mn mx _) => 0 < mn ∧ mn < mx

lemma orOne_ne_zero (f : Option Rat) : orOne f ≠ 0 := by
  cases f with
  | none => simp [orOne]
  | some fv =>
    by_cases h : fv = 0 <;> simp [orOne, h]

lemma delayInvariant_of_validate (n : Nat) (ds : Option DelayConfig)
    (tc : Option TimeoutConfig)
    (h : validateGritConfig (some n) ds tc = .ok ()) :
    delayInvariant ds n 0 := by
  cases ds with
  | none => trivial
  | some d =>
    cases d with
    | fixed q =>
      by_cases hq : q = 0
      · simp [delayInvariant, hq]
      · have hnlt : ¬ q < 0 := by
          intro hlt
          simp only [validateGritConfig] at h
          rw [if_pos (show delayTruthy (some (DelayConfig.fixed q)) = true by
            simp [delayTruthy, hq]), if_pos hlt] at h
          exact absurd h (by simp)
        simpa [delayInvariant] using le_of_not_lt hnlt
    | arr l =>
      simp only [validateGritConfig, delayTruthy, if_true] at h
      split at h
      · exact absurd h (by simp)
      · split at h
        · exact absurd h (by simp)
        · refine ⟨by omega, ?_⟩
          intro x hx
          rename_i hlen hany
          rw [List.any_eq_true] at hany
          push_neg at hany
          have := hany x hx
          simp at this
          exact this
    | expo dd f =>
      simp only [validateGritConfig, delayTruthy, if_true] at h
      split at h
      · exact absurd h (by simp)
      · rename_i hdd
        simp only [delayInvariant]
        intro h0
        exact hdd (by rw [h0])
    | jitter mn mx f =>
      simp only [validateGritConfig, delayTruthy, if_true] at h
      split at h
      · exact absurd h (by simp)
      split at h
      · exact absurd h (by simp)
      split at h
      · exact absurd h (by simp)
      split at h
      · exact absurd h (by simp)
      split at h
      · exact absurd h (by simp)
      rename_i h0 _ hge hle _
      exact ⟨lt_of_le_of_ne (le_of_not_lt (fun hlt => hle (le_of_lt hlt)))
        (fun he => h0 he.symm), lt_of_not_le hge⟩

lemma delayInvariant_of_not_truthy (ds : Option DelayConfig) (n r r' : Nat)
    (ht : delayTruthy ds = false) (h : delayInvariant ds n r) :
    delayInvariant ds n r' := by
  cases ds with
  | none => trivial
  | some d =>
    cases d with
    | fixed q => exact h
    | arr l => simp [delayTruthy] at ht
    | expo dd f => simp [delayTruthy] at ht
    | jitter mn mx f => simp [delayTruthy] at ht

lemma currentDelay_ok (ds : Option DelayConfig) (n r a : Nat) (rand : Rat)
    (hinv : delayInvariant ds n r) (hr : r < n) (ht : delayTruthy ds = true)
    (hrand : 0 ≤ rand) :
    ∃ dv ds2, currentDelay ds a rand = (.ok dv, ds2) ∧
      delayInvariant ds2 n (r + 1) := by
  cases ds with
  | none => simp [delayTruthy] at ht
  | some d =>
    cases d with
    | fixed q =>
      have hq : q ≠ 0 := by simpa [delayTruthy] using ht
      refine ⟨q, some (.fixed q), ?_, hinv⟩
      simp [currentDelay, currentDelayRaw, hq]
    | arr l =>
      obtain ⟨hlen, hpos⟩ := hinv
      have hne : l ≠ [] := by
        intro h0
        rw [h0] at hlen
        simp at hlen
        omega
      obtain ⟨x, t, rfl⟩ := List.exists_cons_of_ne_nil hne
      have hx : 0 < x := hpos x (by simp)
      refine ⟨x, some (.arr t), ?_, ?_, ?_⟩
      · simp [currentDelay, currentDelayRaw, ne_of_gt hx]
      · simp at hlen
        omega
      · intro y hy
        exact hpos y (by simp [hy])
    | expo dd f =>
      have hdd : dd ≠ 0 := hinv
      have hne : dd * orOne f ^ ((a : Int) - 2) ≠ 0 :=
        mul_ne_zero hdd (zpow_ne_zero _ (orOne_ne_zero f))
      exact ⟨dd * orOne f ^ ((a : Int) - 2), some (.expo dd f),
        by simp [currentDelay, currentDelayRaw, hne], hinv⟩
    | jitter mn mx f =>
      obtain ⟨hmn, hlt⟩ := hinv
      have hrd : 0 < rand * (mx - mn) + mn := by
        have : 0 ≤ rand * (mx - mn) := mul_nonneg hrand (by linarith)
        linarith
      cases f with
      | none =>
        exact ⟨rand * (mx - mn) + mn, some (.jitter mn mx none),
          by simp [currentDelay, currentDelayRaw, ne_of_gt hrd], hmn, hlt⟩
      | some fv =>
        by_cases hfv : fv = 0
        · exact ⟨rand * (mx - mn) + mn, some (.jitter mn mx (some fv)),
            by simp [currentDelay, currentDelayRaw, hfv, ne_of_gt hrd], hmn, hlt⟩
        · have hne : (rand * (mx - mn) + mn) * fv ^ ((a : Int) - 2) ≠ 0 :=
            mul_ne_zero (ne_of_gt hrd) (zpow_ne_zero _ hfv)
          refine ⟨(rand * (mx - mn) + mn) * fv ^ ((a : Int) - 2),
            some (.jitter mn mx (some fv)), ?_, hmn, hlt⟩
          simp [currentDelay, currentDelayRaw, hfv, hne]

lemma execute_allFail {α : Type} (C : EngineCfg α) (fn : Nat → Except Thrown α)
    (efn : Nat → Thrown) (w : Nat → RaceWinner) (rand : Nat → Rat)
    (hto : C.timeout = none)
    (hfn : ∀ i, fn i = .error (efn i))
    (hretry : ∀ i, propagateByFilter C.skipErrors C.onlyErrors (efn i) = false)
    (hrand : ∀ j, 0 ≤ rand j) :
    ∀ m a r ds, C.retryCount - r = m → delayInvariant ds C.retryCount r →
      (execute C fn w rand a r ds).invocations = List.range' a (m + 1) ∧
      (execute C fn w rand a r ds).outcome =
        (match C.fallback with
          | some fb => fb (efn (a + m)) (a + m)
          | none => .error (efn (a + m))) ∧
      (execute C fn w rand a r ds).fallbackCalls =
        (match C.fallback with
          | some _ => [(efn (a + m), a + m)]
          | none => ([] : List (Thrown × Nat))) := by
  intro m
  induction m with
  | zero =>
    intro a r ds hm hinv
    have hguard : C.retryCount ≤ r := by omega
    rw [execute]
    simp only [hto, tryBody, timeoutTruthy, Bool.false_eq_true, if_false, hfn a]
    simp only [hguard, dite_true, Nat.add_zero]
    cases C.fallback <;> simp
  | succ k ih =>
    intro a r ds hm hinv
    have hguard : ¬ C.retryCount ≤ r := by omega
    have hidx : a + 1 + k = a + (k + 1) := by omega
    rw [execute]
    simp only [hto, tryBody, timeoutTruthy, Bool.false_eq_true, if_false, hfn a]
    simp only [hguard, dite_false, hretry a, Bool.false_eq_true, if_false]
    by_cases htr : delayTruthy ds
    · obtain ⟨dv, ds2, hcd, hinv2⟩ :=
        currentDelay_ok ds C.retryCount r (a + 1) (rand r) hinv (by omega) htr (hrand r)
      obtain ⟨h1, h2, h3⟩ := ih (a + 1) (r + 1) ds2 (by omega) hinv2
      rw [hidx] at h2 h3
      simp only [htr, if_true, hcd]
      refine ⟨?_, h2, h3⟩
      rw [h1]
      simp [List.range'_succ]
    · rw [Bool.not_eq_true] at htr
      have hinv2 := delayInvariant_of_not_truthy ds C.retryCount r (r + 1) htr hinv
      obtain ⟨h1, h2, h3⟩ := ih (a + 1) (r + 1) ds (by omega) hinv2
      rw [hidx] at h2 h3
      simp only [htr, Bool.false_eq_true, if_false]
      refine ⟨?_, h2, h3⟩
      rw [h1]
      simp [List.range'_succ]


lemma execute_firstSuccess {α : Type} (C : EngineCfg α) (fn : Nat → Except Thrown α)
    (efn : Nat → Thrown) (w : Nat → RaceWinner) (rand : Nat → Rat) (v : α)
    (hto : C.timeout = none)
    (hrand : ∀ j, 0 ≤ rand j) :
    ∀ m a r ds, m ≤ C.retryCount - r → delayInvariant ds C.retryCount r →
      (∀ i, a ≤ i → i < a + m → fn i = .error (efn i) ∧
        propagateByFilter C.skipErrors C.onlyErrors (efn i) = false) →
      fn (a + m) = .ok v →
      (execute C fn w rand a r ds).invocations = List.range' a (m + 1) ∧
      (execute C fn w rand a r ds).outcome = .ok v ∧
      (execute C fn w rand a r ds).fallbackCalls = [] := by
  intro m
  induction m with
  | zero =>
    intro a r ds _hm _hinv _hfail hsucc
    rw [Nat.add_zero] at hsucc
    rw [execute]
    simp only [hto, tryBody, timeoutTruthy, Bool.false_eq_true, if_false, hsucc]
    simp
  | succ k ih =>
    intro a r ds hm hinv hfail hsucc
    have hguard : ¬ C.retryCount ≤ r := by omega
    obtain ⟨hfa, hra⟩ := hfail a (le_refl a) (by omega)
    rw [execute]
    simp only [hto, tryBody, timeoutTruthy, Bool.false_eq_true, if_false, hfa]
    simp only [hguard, dite_false, hra, Bool.false_eq_true, if_false]
    have hsucc2 : fn (a + 1 + k) = .ok v := by
      rw [show a + 1 + k = a + (k + 1) by omega]
      exact hsucc
    have hfail2 : ∀ i, a + 1 ≤ i → i < a + 1 + k → fn i = .error (efn i) ∧
        propagateByFilter C.skipErrors C.onlyErrors (efn i) = false := by
      intro i hi1 hi2
      exact hfail i (by omega) (by omega)
    by_cases htr : delayTruthy ds
    · obtain ⟨dv, ds2, hcd, hinv2⟩ :=
        currentDelay_ok ds C.retryCount r (a + 1) (rand r) hinv (by omega) htr (hrand r)
      obtain ⟨h1, h2, h3⟩ := ih (a + 1) (r + 1) ds2 (by omega) hinv2 hfail2 hsucc2
      simp only [htr, if_true, hcd]
      refine ⟨?_, h2, h3⟩
      rw [h1]
      simp [List.range'_succ]
    · rw [Bool.not_eq_true] at htr
      have hinv2 := delayInvariant_of_not_truthy ds C.retryCount r (r + 1) htr hinv
      obtain ⟨h1, h2, h3⟩ := ih (a + 1) (r + 1) ds (by omega) hinv2 hfail2 hsucc2
      simp only [htr, Bool.false_eq_true, if_false]
      refine ⟨?_, h2, h3⟩
      rw [h1]
      simp [List.range'_succ]

lemma execute_expo_delays {α : Type} (C : EngineCfg α) (fn : Nat → Except Thrown α)
    (efn : Nat → Thrown) (w : Nat → RaceWinner) (rand : Nat → Rat)
    (d : Rat) (f : Option Rat)
    (hto : C.timeout = none) (hd : d ≠ 0)
    (hfn : ∀ i, fn i = .error (efn i))
    (hretry : ∀ i, propagateByFilter C.skipErrors C.onlyErrors (efn i) = false) :
    ∀ m a r, C.retryCount - r = m → 1 ≤ a →
      (execute C fn w rand a r (some (.expo d f))).delays =
        (List.range' (a - 1) m).map (fun e => d * orOne f ^ e) := by
  intro m
  induction m with
  | zero =>
    intro a r hm _ha
    have hguard : C.retryCount ≤ r := by omega
    rw [execute]
    simp only [hto, tryBody, timeoutTruthy, Bool.false_eq_true, if_false, hfn a]
    simp only [hguard, dite_true]
    cases C.fallback <;> simp
  | succ k ih =>
    intro a r hm ha
    have hguard : ¬ C.retryCount ≤ r := by omega
    rw [execute]
    simp only [hto, tryBody, timeoutTruthy, Bool.false_eq_true, if_false, hfn a]
    simp only [hguard, dite_false, hretry a, Bool.false_eq_true, if_false]
    have htr : delayTruthy (some (.expo d f)) = true := rfl
    have hne : d * orOne f ^ (((a + 1 : Nat) : Int) - 2) ≠ 0 :=
      mul_ne_zero hd (zpow_ne_zero _ (orOne_ne_zero f))
    have hcd : currentDelay (some (.expo d f)) (a + 1) (rand r) =
        (.ok (d * orOne f ^ (((a + 1 : Nat) : Int) - 2)), some (.expo d f)) := by
      simp only [currentDelay, currentDelayRaw]
      rw [if_neg hne]
    simp only [htr, if_true, hcd]
    have hrest := ih (a + 1) (r + 1) (by omega) (by omega)
    have hexp : d * orOne f ^ (((a + 1 : Nat) : Int) - 2) = d * orOne f ^ (a - 1) := by
      congr 1
      have hcast : ((a + 1 : Nat) : Int) - 2 = ((a - 1 : Nat) : Int) := by omega
      rw [hcast, zpow_natCast]
    have hstart : a + 1 - 1 = a - 1 + 1 := by omega
    rw [hrest, hexp, hstart, List.range'_succ, List.map_cons]

lemma gritAttempt_ok {α : Type} (g : GritProps α) (fn : Nat → Except Thrown α)
    (w : Nat → RaceWinner) (rand : Nat → Rat)
    (hval : validateGritConfig g.retryCount g.delay g.timeout = .ok ()) :
    gritAttempt g fn w rand = .ok (execute g.toEngineCfg fn w rand 1 0 g.delay) := by
  unfold gritAttempt
  rw [hval]

lemma propagateByFilter_eq_false_of_classId_none (skip only : List ErrClass)
    (e : Thrown) (h : e.classId = none) :
    propagateByFilter skip only e = false := by
  cases e with
  | classed c m => simp [Thrown.classId] at h
  | rawStr s => rfl
  | rawNull => rfl

/-- **C1.** For every `retryCount = n ≥ 0` and every operation whose failures
are retryable (not filtered out by `skipErrors`/`onlyErrors`), with a valid
delay configuration and no timeout configured: if the operation always
fails, `attempt` invokes it exactly `n + 1` times (at attempt numbers
`1, …, n+1`) and the terminal outcome is the last failure, or the fallback's
result when a fallback is configured; if the operation first succeeds on
invocation `k ≤ n + 1`, `attempt` invokes it exactly `k` times and resolves
with that success value. -/
theorem c1_attempt_invocation_counts {α : Type} (n k : Nat)
    (skip only : List ErrClass) (fb : Option (Thrown → Nat → Except Thrown α))
    (ds : Option DelayConfig) (fn : Nat → Except Thrown α) (efn : Nat → Thrown)
    (w : Nat → RaceWinner) (rand : Nat → Rat) (v : α)
    (hval : validateGritConfig (some n) ds none = .ok ())
    (hrand : ∀ j, 0 ≤ rand j)
    (hretryable : ∀ i, propagateByFilter skip only (efn i) = false) :
    ((∀ i, fn i = .error (efn i)) →
      ∃ res, gritAttempt ⟨some n, only, skip, ds, none, fb, false⟩ fn w rand = .ok res ∧
        res.invocations = List.range' 1 (n + 1) ∧
        res.outcome = (match fb with
          | some f => f (efn (n + 1)) (n + 1)
          | none => .error (efn (n + 1))))
    ∧ (1 ≤ k → k ≤ n + 1 → fn k = .ok v →
        (∀ i, 1 ≤ i → i < k → fn i = .error (efn i)) →
      ∃ res, gritAttempt ⟨some n, only, skip, ds, none, fb, false⟩ fn w rand = .ok res ∧
        res.invocations = List.range' 1 k ∧
        res.outcome = .ok v) := by
  have hinv : delayInvariant ds n 0 := delayInvariant_of_validate n ds none hval
  have hga : gritAttempt (⟨some n, only, skip, ds, none, fb, false⟩ : GritProps α) fn w rand =
      .ok (execute (⟨n, skip, only, none, fb⟩ : EngineCfg α) fn w rand 1 0 ds) :=
    gritAttempt_ok _ fn w rand hval
  constructor
  · intro hfn
    obtain ⟨h1, h2, _h3⟩ :=
      execute_allFail (⟨n, skip, only, none, fb⟩ : EngineCfg α) fn efn w rand rfl hfn
        hretryable hrand n 1 0 ds (show n - 0 = n from rfl) hinv
    rw [show 1 + n = n + 1 by omega] at h2
    exact ⟨_, hga, h1, h2⟩
  · intro hk1 hk2 hsucc hfail
    have hsucc2 : fn (1 + (k - 1)) = .ok v := by
      rw [show 1 + (k - 1) = k by omega]
      exact hsucc
    have hfail2 : ∀ i, 1 ≤ i → i < 1 + (k - 1) → fn i = .error (efn i) ∧
        propagateByFilter skip only (efn i) = false := by
      intro i hi1 hi2
      exact ⟨hfail i hi1 (by omega), hretryable i⟩
    obtain ⟨h1, h2, _h3⟩ :=
      execute_firstSuccess (⟨n, skip, only, none, fb⟩ : EngineCfg α) fn efn w rand v rfl
        hrand (k - 1) 1 0 ds (show k - 1 ≤ n - 0 by omega) hinv hfail2 hsucc2
    rw [show k - 1 + 1 = k by omega] at h1
    exact ⟨_, hga, h1, h2⟩

theorem c1_attempt_invocation_counts_witness :
    (∃ res, gritAttempt (α := Nat) ⟨some 2, [], [], none, none, none, false⟩
        (fun _ => .error (.rawStr "boom")) (fun _ => .opSettles) (fun _ => 0) = .ok res ∧
      res.invocations = List.range' 1 3 ∧
      res.outcome = .error (.rawStr "boom")) ∧
    (∃ res, gritAttempt (α := Nat) ⟨some 2, [], [], none, none, none, false⟩
        (fun i => if i = 2 then .ok 7 else .error (.rawStr "boom"))
        (fun _ => .opSettles) (fun _ => 0) = .ok res ∧
      res.invocations = List.range' 1 2 ∧
      res.outcome = .ok 7) := by
  constructor
  · exact (c1_attempt_invocation_counts 2 1 [] [] none none
      (fun _ => .error (.rawStr "boom")) (fun _ => .rawStr "boom")
      (fun _ => .opSettles) (fun _ => 0) 0 rfl (fun _ => le_refl 0)
      (fun _ => rfl)).1 (fun _ => rfl)
  · exact (c1_attempt_invocation_counts 2 2 [] [] none none
      (fun i => if i = 2 then .ok 7 else .error (.rawStr "boom"))
      (fun _ => .rawStr "boom") (fun _ => .opSettles) (fun _ => 0) 7 rfl
      (fun _ => le_refl 0) (fun _ => rfl)).2 (by omega) (by omega) rfl
      (fun i hi1 hi2 => by
        interval_cases i
        · rfl)

/-- **C2.** For every valid configuration and every operation (always
failing, always succeeding, or mixed) and oracles, `safeAttempt` never
rejects: it produces exactly one of `{result: value, error: null}` (on
terminal success) or `{result: null, error: value}` (on terminal failure),
the other field being null. -/
theorem c2_safeAttempt_never_rejects {α : Type} (g : GritProps α)
    (fn : Nat → Except Thrown α) (w : Nat → RaceWinner) (rand : Nat → Rat)
    (hval : validateGritConfig g.retryCount g.delay g.timeout = .ok ()) :
    (∃ v, safeAttempt g.toEngineCfg fn w rand g.delay =
      ⟨some v, none⟩) ∨
    (∃ e, safeAttempt g.toEngineCfg fn w rand g.delay =
      ⟨none, some e⟩) := by
  unfold safeAttempt
  cases h : (execute g.toEngineCfg fn w rand 1 0 g.delay).outcome with
  | ok v =>
    left
    exact ⟨v, rfl⟩
  | error e =>
    right
    exact ⟨e, rfl⟩

theorem c2_safeAttempt_never_rejects_witness :
    ((∃ v, safeAttempt (GritProps.toEngineCfg ⟨some 0, [], [], none, none, none, false⟩)
        (fun _ => .ok (5 : Nat)) (fun _ => .opSettles) (fun _ => 0) none = ⟨some v, none⟩) ∨
     (∃ e, safeAttempt (GritProps.toEngineCfg ⟨some 0, [], [], none, none, none, false⟩)
        (fun _ => .ok (5 : Nat)) (fun _ => .opSettles) (fun _ => 0) none = ⟨none, some e⟩)) ∧
    ((∃ v, safeAttempt (GritProps.toEngineCfg ⟨some 1, [], [], none, none, none, false⟩)
        (fun _ => .error (α := Nat) .rawNull) (fun _ => .opSettles) (fun _ => 0) none = ⟨some v, none⟩) ∨
     (∃ e, safeAttempt (GritProps.toEngineCfg ⟨some 1, [], [], none, none, none, false⟩)
        (fun _ => .error (α := Nat) .rawNull) (fun _ => .opSettles) (fun _ => 0) none = ⟨none, some e⟩)) :=
  ⟨c2_safeAttempt_never_rejects ⟨some 0, [], [], none, none, none, false⟩
      (fun _ => .ok 5) (fun _ => .opSettles) (fun _ => 0) rfl,
   c2_safeAttempt_never_rejects ⟨some 1, [], [], none, none, none, false⟩
      (fun _ => .error .rawNull) (fun _ => .opSettles) (fun _ => 0) rfl⟩

/-- **C3.** For every `retryCount = n` with a fallback configured, when the
operation fails retryably on all `n + 1` attempts, the fallback is invoked
exactly once, only after the retry budget is exhausted, receiving the last
error and the final attempt number `n + 1` as arguments, and its result
becomes the terminal outcome of `attempt`. -/
theorem c3_fallback_invoked_once {α : Type} (n : Nat)
    (skip only : List ErrClass) (ds : Option DelayConfig)
    (fn : Nat → Except Thrown α) (efn : Nat → Thrown)
    (w : Nat → RaceWinner) (rand : Nat → Rat)
    (f : Thrown → Nat → Except Thrown α)
    (hval : validateGritConfig (some n) ds none = .ok ())
    (hrand : ∀ j, 0 ≤ rand j)
    (hfn : ∀ i, fn i = .error (efn i))
    (hretry : ∀ i, propagateByFilter skip only (efn i) = false) :
    ∃ res, gritAttempt ⟨some n, only, skip, ds, none, some f, false⟩ fn w rand = .ok res ∧
      res.fallbackCalls = [(efn (n + 1), n + 1)] ∧
      res.outcome = f (efn (n + 1)) (n + 1) ∧
      res.invocations = List.range' 1 (n + 1) := by
  have hinv : delayInvariant ds n 0 := delayInvariant_of_validate n ds none hval
  obtain ⟨h1, h2, h3⟩ :=
    execute_allFail (⟨n, skip, only, none, some f⟩ : EngineCfg α) fn efn w rand rfl hfn
      hretry hrand n 1 0 ds (show n - 0 = n from rfl) hinv
  rw [show 1 + n = n + 1 by omega] at h2 h3
  exact ⟨_, gritAttempt_ok _ fn w rand hval, h3, h2, h1⟩

theorem c3_fallback_invoked_once_witness :
    ∃ res, gritAttempt (α := Nat) ⟨some 1, [], [], none, none,
        some (fun _ a => .ok (100 + a)), false⟩
        (fun _ => .error (.rawStr "down")) (fun _ => .opSettles) (fun _ => 0) = .ok res ∧
      res.fallbackCalls = [(.rawStr "down", 2)] ∧
      res.outcome = .ok 102 ∧
      res.invocations = List.range' 1 2 :=
  c3_fallback_invoked_once 1 [] [] none (fun _ => .error (.rawStr "down"))
    (fun _ => .rawStr "down") (fun _ => .opSettles) (fun _ => 0)
    (fun _ a => .ok (100 + a)) rfl (fun _ => le_refl 0) (fun _ => rfl) (fun _ => rfl)

/-- **C4** (code bug evaluation).  The claim says engine construction raises
a configuration error for every scalar delay not strictly greater than 0.
The code disagrees at the scalar `0`: `if (delayConfig)` treats the scalar
`0` as falsy and skips the delay checks entirely, so `validateGritConfig`
accepts it, although the guard's own message ("delay must be greater than
0"), every sibling branch (which checks `<= 0`), and the test expecting
`{delay: 0}` to throw show the intent; a negative scalar is rejected as the
claim says. -/
theorem c4_scalar_zero_delay_accepted :
    validateGritConfig (some 1) (some (.fixed 0)) none = .ok () ∧
    validateGritConfig (some 1) (some (.fixed (-1))) none =
      .error (mkGritError "delay must be greater than 0") ∧
    delayTruthy (some (.fixed 0)) = false :=
  ⟨rfl, rfl, rfl⟩

/-- **C5.** For an exponential delay spec `{delay: d, factor: f}` (no
jitter) with `d > 0` and `f ≠ 0`, on a run whose failures are all retryable,
the wait before the `i`-th retry (the `i`-th recorded delay, `i = 1, 2, …`)
is exactly `d * f^(i-1)`; and when the factor is absent it defaults to `1`,
making every wait equal `d`. -/
theorem c5_exponential_delays {α : Type} (n : Nat) (d f : Rat)
    (skip only : List ErrClass) (fb : Option (Thrown → Nat → Except Thrown α))
    (fn : Nat → Except Thrown α) (efn : Nat → Thrown)
    (w : Nat → RaceWinner) (rand : Nat → Rat)
    (hd : 0 < d) (hf : f ≠ 0)
    (hfn : ∀ i, fn i = .error (efn i))
    (hretry : ∀ i, propagateByFilter skip only (efn i) = false) :
    Except.map ExecResult.delays
      (gritAttempt ⟨some n, only, skip, some (.expo d (some f)), none, fb, false⟩ fn w rand)
        = .ok ((List.range n).map (fun i => d * f ^ i)) ∧
    Except.map ExecResult.delays
      (gritAttempt ⟨some n, only, skip, some (.expo d none), none, fb, false⟩ fn w rand)
        = .ok (List.replicate n d) := by
  have hval : ∀ fo : Option Rat,
      validateGritConfig (some n) (some (.expo d fo)) none = .ok () := by
    intro fo
    simp [validateGritConfig, delayTruthy, not_le.mpr hd, validateTimeout]
  constructor
  · rw [gritAttempt_ok _ fn w rand (hval (some f))]
    have h := execute_expo_delays (⟨n, skip, only, none, fb⟩ : EngineCfg α) fn efn w rand
      d (some f) rfl (ne_of_gt hd) hfn hretry n 1 0 (show n - 0 = n from rfl) (le_refl 1)
    have ho : orOne (some f) = f := by simp [orOne, hf]
    show Except.ok ((execute (⟨n, skip, only, none, fb⟩ : EngineCfg α) fn w rand 1 0
        (some (.expo d (some f)))).delays) = Except.ok ((List.range n).map (fun i => d * f ^ i))
    rw [h, ho, List.range_eq_range']
  · rw [gritAttempt_ok _ fn w rand (hval none)]
    have h := execute_expo_delays (⟨n, skip, only, none, fb⟩ : EngineCfg α) fn efn w rand
      d none rfl (ne_of_gt hd) hfn hretry n 1 0 (show n - 0 = n from rfl) (le_refl 1)
    show Except.ok ((execute (⟨n, skip, only, none, fb⟩ : EngineCfg α) fn w rand 1 0
        (some (.expo d none))).delays) = Except.ok (List.replicate n d)
    rw [h]
    simp [orOne, List.map_const]

theorem c5_exponential_delays_witness :
    Except.map ExecResult.delays
      (gritAttempt (α := Nat) ⟨some 3, [], [], some (.expo 2000 (some 2)), none, none, false⟩
        (fun _ => .error (.rawStr "err")) (fun _ => .opSettles) (fun _ => 0))
        = .ok ((List.range 3).map (fun i => 2000 * 2 ^ i)) ∧
    Except.map ExecResult.delays
      (gritAttempt (α := Nat) ⟨some 3, [], [], some (.expo 2000 none), none, none, false⟩
        (fun _ => .error (.rawStr "err")) (fun _ => .opSettles) (fun _ => 0))
        = .ok (List.replicate 3 2000) :=
  c5_exponential_delays 3 2000 2 [] [] none (fun _ => .error (.rawStr "err"))
    (fun _ => .rawStr "err") (fun _ => .opSettles) (fun _ => 0)
    (by norm_num) (by norm_num) (fun _ => rfl) (fun _ => rfl)

/-- **C6.** For every error whose runtime class is in `skipErrors`, with the
retry budget not yet exhausted, the error propagates immediately with no
retry, no delay and no fallback, regardless of whether the class is also
listed in `onlyErrors` (the `skipErrors` check runs first). -/
theorem c6_skipErrors_precedence {α : Type} (n : Nat) (c : ErrClass) (m : TMessage)
    (skip only : List ErrClass) (ds : Option DelayConfig)
    (fb : Option (Thrown → Nat → Except Thrown α))
    (fn : Nat → Except Thrown α) (w : Nat → RaceWinner) (rand : Nat → Rat)
    (hn : 0 < n) (hc : c ∈ skip)
    (hval : validateGritConfig (some n) ds none = .ok ())
    (hfn : fn 1 = .error (.classed c m)) :
    ∃ res, gritAttempt ⟨some n, only, skip, ds, none, fb, false⟩ fn w rand = .ok res ∧
      res.outcome = .error (.classed c m) ∧
      res.invocations = [1] ∧ res.delays = [] ∧ res.fallbackCalls = [] := by
  have hprop : propagateByFilter skip only (.classed c m) = true := by
    show (if skip ≠ [] ∧ c ∈ skip then true
      else if only ≠ [] ∧ c ∉ only then true else false) = true
    rw [if_pos ⟨List.ne_nil_of_mem hc, hc⟩]
  have hrun : execute (⟨n, skip, only, none, fb⟩ : EngineCfg α) fn w rand 1 0 ds =
      ⟨.error (.classed c m), [1], [], [], ds⟩ := by
    rw [execute]
    simp only [tryBody, timeoutTruthy, Bool.false_eq_true, if_false, hfn]
    simp only [show ¬ n ≤ 0 by omega, dite_false, hprop, if_true]
  refine ⟨⟨.error (.classed c m), [1], [], [], ds⟩, ?_, rfl, rfl, rfl, rfl⟩
  rw [gritAttempt_ok _ fn w rand hval]
  exact congrArg Except.ok hrun

theorem c6_skipErrors_precedence_witness :
    ∃ res, gritAttempt (α := Nat) ⟨some 3, [.userClass 0], [.userClass 0], none, none,
        none, false⟩
        (fun _ => .error (.classed (.userClass 0) (.custom "nope")))
        (fun _ => .opSettles) (fun _ => 0) = .ok res ∧
      res.outcome = .error (.classed (.userClass 0) (.custom "nope")) ∧
      res.invocations = [1] ∧ res.delays = [] ∧ res.fallbackCalls = [] :=
  c6_skipErrors_precedence 3 (.userClass 0) (.custom "nope") [.userClass 0]
    [.userClass 0] none none (fun _ => .error (.classed (.userClass 0) (.custom "nope")))
    (fun _ => .opSettles) (fun _ => 0) (by norm_num) (by simp) rfl rfl

/-- **C7.** When `onlyErrors` is non-empty, an error whose runtime class is
not in the set propagates on the very first failure with zero retries
attempted — no retry, no delay, no fallback — for every `retryCount > 0`. -/
theorem c7_onlyErrors_filters {α : Type} (n : Nat) (c : ErrClass) (m : TMessage)
    (skip only : List ErrClass) (ds : Option DelayConfig)
    (fb : Option (Thrown → Nat → Except Thrown α))
    (fn : Nat → Except Thrown α) (w : Nat → RaceWinner) (rand : Nat → Rat)
    (hn : 0 < n) (honly : only ≠ []) (hc : c ∉ only)
    (hval : validateGritConfig (some n) ds none = .ok ())
    (hfn : fn 1 = .error (.classed c m)) :
    ∃ res, gritAttempt ⟨some n, only, skip, ds, none, fb, false⟩ fn w rand = .ok res ∧
      res.outcome = .error (.classed c m) ∧
      res.invocations = [1] ∧ res.delays = [] ∧ res.fallbackCalls = [] := by
  have hprop : propagateByFilter skip only (.classed c m) = true := by
    show (if skip ≠ [] ∧ c ∈ skip then true
      else if only ≠ [] ∧ c ∉ only then true else false) = true
    by_cases h1 : skip ≠ [] ∧ c ∈ skip
    · rw [if_pos h1]
    · rw [if_neg h1, if_pos ⟨honly, hc⟩]
  have hrun : execute (⟨n, skip, only, none, fb⟩ : EngineCfg α) fn w rand 1 0 ds =
      ⟨.error (.classed c m), [1], [], [], ds⟩ := by
    rw [execute]
    simp only [tryBody, timeoutTruthy, Bool.false_eq_true, if_false, hfn]
    simp only [show ¬ n ≤ 0 by omega, dite_false, hprop, if_true]
  refine ⟨⟨.error (.classed c m), [1], [], [], ds⟩, ?_, rfl, rfl, rfl, rfl⟩
  rw [gritAttempt_ok _ fn w rand hval]
  exact congrArg Except.ok hrun

theorem c7_onlyErrors_filters_witness :
    ∃ res, gritAttempt (α := Nat) ⟨some 5, [.userClass 1, .userClass 2], [], none, none,
        none, false⟩
        (fun _ => .error (.classed (.userClass 3) (.custom "other")))
        (fun _ => .opSettles) (fun _ => 0) = .ok res ∧
      res.outcome = .error (.classed (.userClass 3) (.custom "other")) ∧
      res.invocations = [1] ∧ res.delays = [] ∧ res.fallbackCalls = [] :=
  c7_onlyErrors_filters 5 (.userClass 3) (.custom "other") []
    [.userClass 1, .userClass 2] none none
    (fun _ => .error (.classed (.userClass 3) (.custom "other")))
    (fun _ => .opSettles) (fun _ => 0) (by norm_num) (by simp) (by simp) rfl rfl

/-- **C8.** Thrown values that do not expose a class identity (raw strings,
`null`) bypass the `skipErrors`/`onlyErrors` filtering entirely and are
always retried until the budget is exhausted, for every filter configuration
(in particular when `onlyErrors` is non-empty and would otherwise exclude
them): the operation is invoked exactly `n + 1` times and the terminal
outcome is the last failure (or the fallback's result). -/
theorem c8_raw_values_always_retried {α : Type} (n : Nat)
    (skip only : List ErrClass) (ds : Option DelayConfig)
    (fb : Option (Thrown → Nat → Except Thrown α))
    (fn : Nat → Except Thrown α) (efn : Nat → Thrown)
    (w : Nat → RaceWinner) (rand : Nat → Rat)
    (hval : validateGritConfig (some n) ds none = .ok ())
    (hrand : ∀ j, 0 ≤ rand j)
    (hfn : ∀ i, fn i = .error (efn i))
    (hraw : ∀ i, (efn i).classId = none) :
    ∃ res, gritAttempt ⟨some n, only, skip, ds, none, fb, false⟩ fn w rand = .ok res ∧
      res.invocations = List.range' 1 (n + 1) ∧
      res.outcome = (match fb with
        | some f => f (efn (n + 1)) (n + 1)
        | none => .error (efn (n + 1))) := by
  have hretry : ∀ i, propagateByFilter skip only (efn i) = false := fun i =>
    propagateByFilter_eq_false_of_classId_none skip only (efn i) (hraw i)
  obtain ⟨h1, h2, _h3⟩ :=
    execute_allFail (⟨n, skip, only, none, fb⟩ : EngineCfg α) fn efn w rand rfl hfn
      hretry hrand n 1 0 ds (show n - 0 = n from rfl)
      (delayInvariant_of_validate n ds none hval)
  rw [show 1 + n = n + 1 by omega] at h2
  exact ⟨_, gritAttempt_ok _ fn w rand hval, h1, h2⟩

theorem c8_raw_values_always_retried_witness :
    ∃ res, gritAttempt (α := Nat) ⟨some 1, [.userClass 1], [], none, none, none, false⟩
        (fun i => .error (if i = 1 then .rawStr "s" else .rawNull))
        (fun _ => .opSettles) (fun _ => 0) = .ok res ∧
      res.invocations = List.range' 1 2 ∧
      res.outcome = .error .rawNull := by
  obtain ⟨res, hr, h1, h2⟩ := c8_raw_values_always_retried 1 [] [.userClass 1] none none
    (fun i => .error (if i = 1 then .rawStr "s" else .rawNull))
    (fun i => if i = 1 then .rawStr "s" else .rawNull)
    (fun _ => .opSettles) (fun _ => 0) rfl (fun _ => le_refl 0) (fun _ => rfl)
    (fun i => by by_cases h : i = 1 <;> simp [h, Thrown.classId])
  exact ⟨res, hr, h1, h2⟩

/-- **C9.** With a timeout policy whose cancellation signal is already
aborted before an attempt's race starts, the operation is never invoked for
that attempt (no invocation is recorded) and the attempt fails immediately
with the signal's abort reason — `getAbortedReason` substituting the generic
`DOMException('This operation was aborted.', 'AbortError')` when the signal
carries no reason. -/
theorem c9_preaborted_signal_skips_invocation {α : Type} (t : JsNum)
    (msg : Option String) (s : SignalState) (hab : s.aborted = true)
    (fn : Nat → Except Thrown α) (w : RaceWinner) (a : Nat) :
    tryBody (some (.obj t msg (some s))) fn w a = ([], .error (getAbortedReason s)) ∧
    (s.reason = none →
      getAbortedReason s = .classed .domException (.custom "This operation was aborted.")) := by
  constructor
  · simp [tryBody, timeoutTruthy, getTimeoutConfig, hab]
  · intro hreason
    simp [getAbortedReason, hreason]

theorem c9_preaborted_signal_skips_invocation_witness :
    tryBody (α := Nat) (some (.obj (.fin 500) none (some ⟨true, none⟩)))
      (fun _ => .ok 1) .opSettles 1 = ([], .error (getAbortedReason ⟨true, none⟩)) ∧
    ((⟨true, none⟩ : SignalState).reason = none →
      getAbortedReason ⟨true, none⟩ =
        .classed .domException (.custom "This operation was aborted.")) :=
  c9_preaborted_signal_skips_invocation (.fin 500) none ⟨true, none⟩ rfl
    (fun _ => .ok 1) .opSettles 1

/-- **C10.** An explicit delay array is shared by reference with each engine
the builder materializes, and each retry removes one entry from its front
(the `shift` in `#currentDelay`); consequently, once a first `attempt` call
on a builder has consumed at least one entry, a second `attempt` or
`safeAttempt` call on the same builder fails at engine construction with the
configuration error "Delay array length must be equal to retry count",
because the shared array's length no longer equals `retryCount`. -/
theorem c10_shared_delay_array {α : Type} (b : BuilderState α)
    (l l2 : List Rat) (n : Nat) (x : Rat) (t : List Rat) (anum : Nat) (rnd : Rat)
    (fn fn2 : Nat → Except Thrown α) (w w2 : Nat → RaceWinner)
    (rand rand2 : Nat → Rat)
    (res : ExecResult α) (b2 : BuilderState α)
    (hrc : b.props.retryCount = some n)
    (hdelay : b.props.delay = some (.arr l))
    (hlen0 : l.length = n)
    (hfirst : builderAttemptCall b fn w rand = (.ok res, b2))
    (hcons : b2.props.delay = some (.arr l2))
    (hlen : l2.length < l.length) :
    currentDelayRaw (some (.arr (x :: t))) anum rnd = (some x, some (.arr t)) ∧
    (builderAttemptCall b2 fn2 w2 rand2).1 =
      .error (mkGritError "Delay array length must be equal to retry count") := by
  refine ⟨rfl, ?_⟩
  have hrc2 : b2.props.retryCount = some n := by
    unfold builderAttemptCall at hfirst
    cases hga : gritAttempt b.props fn w rand with
    | error e =>
      rw [hga] at hfirst
      simp [Prod.mk.injEq] at hfirst
    | ok res3 =>
      rw [hga] at hfirst
      rw [Prod.mk.injEq] at hfirst
      obtain ⟨-, hb2⟩ := hfirst
      rw [← hb2]
      exact hrc
  have hne : l2.length ≠ n := by omega
  have hval2 : validateGritConfig b2.props.retryCount b2.props.delay b2.props.timeout =
      .error (mkGritError "Delay array length must be equal to retry count") := by
    rw [hrc2, hcons]
    show (if l2.length ≠ n then
        Except.error (mkGritError "Delay array length must be equal to retry count")
      else if l2.any (fun x => x ≤ 0) then
        Except.error (mkGritError "delay must be greater than 0")
      else Except.ok ()) = _
    rw [if_pos hne]
  have hga2 : gritAttempt b2.props fn2 w2 rand2 =
      .error (mkGritError "Delay array length must be equal to retry count") := by
    unfold gritAttempt
    rw [hval2]
  unfold builderAttemptCall
  rw [hga2]

theorem c10_shared_delay_array_witness :
    currentDelayRaw (some (.arr (5 :: []))) 2 0 = (some 5, some (.arr [])) ∧
    (builderAttemptCall
        (⟨⟨some 1, [], [], some (.arr []), none, none, false⟩⟩ : BuilderState Nat)
        (fun _ => .ok 3) (fun _ => .opSettles) (fun _ => 0)).1 =
      .error (mkGritError "Delay array length must be equal to retry count") := by
  have hfirst : builderAttemptCall
      (⟨⟨some 1, [], [], some (.arr [5]), none, none, false⟩⟩ : BuilderState Nat)
      (fun _ => .error (.rawStr "x")) (fun _ => .opSettles) (fun _ => 0) =
      (.ok ⟨.error (.rawStr "x"), [1, 2], [], [5], some (.arr [])⟩,
       ⟨⟨some 1, [], [], some (.arr []), none, none, false⟩⟩) := by
    simp [builderAttemptCall, gritAttempt, validateGritConfig, delayTruthy, validateTimeout,
      GritProps.toEngineCfg, execute, tryBody, timeoutTruthy, propagateByFilter,
      currentDelay, currentDelayRaw]
    norm_num
  exact c10_shared_delay_array
    (⟨⟨some 1, [], [], some (.arr [5]), none, none, false⟩⟩ : BuilderState Nat)
    [5] [] 1 5 [] 2 0
    (fun _ => .error (.rawStr "x")) (fun _ => .ok 3) (fun _ => .opSettles)
    (fun _ => .opSettles) (fun _ => 0) (fun _ => 0)
    ⟨.error (.rawStr "x"), [1, 2], [], [5], some (.arr [])⟩
    (⟨⟨some 1, [], [], some (.arr []), none, none, false⟩⟩ : BuilderState Nat)
    rfl rfl rfl hfirst rfl (by norm_num)
